import Mathlib

/-!
Verification of the distance-preserving velocity-profile engine
(`distance_preserving_engine.py`) and the anchor round-trip logic of the
data bridge (`data_bridge.py`).

The embedding models Python floats as rationals (`ℚ`), so every arithmetic
identity the engine relies on holds exactly; the spec's numeric tolerances
(1e-9, 1e-6) are then implied by exact equalities.  Dictionary-based segment
records are modelled as structures whose fields may be absent (`Option`) or
present but non-numeric (`Val.nonnum`, standing for any value that Python's
`float()` rejects).
-/

namespace SpeedGraph

/-- A raw field value of a segment record: either something `float()` parses
to a number, or something it rejects. -/
inductive Val where
  | num (q : ℚ)
  | nonnum (s : String)
deriving DecidableEq

/-- Python `float(v)`: `some` when conversion succeeds. -/
def Val.toNum? : Val → Option ℚ
  | .num q => some q
  | .nonnum _ => none

/-- A raw segment record `{'frame_start', 'frame_end', 'distance'}`;
`none` models a missing dictionary key. -/
structure Segment where
  frame_start : Option Val
  frame_end : Option Val
  distance : Option Val
deriving DecidableEq

/-- Numeric value of an optional field, defaulting to 0; matches Python's
`float(seg[...])` on records that already passed validation. -/
def fieldNum (o : Option Val) : ℚ :=
  (o.bind Val.toNum?).getD 0

/-- Parsed `frame_start`. -/
def Segment.fsQ (seg : Segment) : ℚ := fieldNum seg.frame_start

/-- Parsed `frame_end`. -/
def Segment.feQ (seg : Segment) : ℚ := fieldNum seg.frame_end

/-- Parsed `distance`. -/
def Segment.distQ (seg : Segment) : ℚ := fieldNum seg.distance

/-- Segment duration `dt_i = (frame_end - frame_start) / fps`
(engine step 1). -/
def segDt (fps : ℚ) (seg : Segment) : ℚ :=
  (seg.feQ - seg.fsQ) / fps

/-- Distance coefficient `m_i = 2 * distance / dt_i` (engine step 2). -/
def segM (fps : ℚ) (seg : Segment) : ℚ :=
  2 * seg.distQ / segDt fps seg

/-- A node of the velocity profile: `{'time', 'velocity'}`. -/
structure Point where
  time : ℚ
  velocity : ℚ
deriving DecidableEq

/-- Engine state: the precomputed arrays and the anchor bookkeeping of
`DistancePreservingEngine`. -/
structure EngineState where
  fps : ℚ
  t : List ℚ
  dt : List ℚ
  m : List ℚ
  A : List ℤ
  B : List ℚ
  anchor_k : ℤ
  w_prev : ℚ
  is_prepared : Bool
deriving DecidableEq

/-- `DistancePreservingEngine.__init__(fps)`. -/
def initEngine (fps : ℚ) : EngineState :=
  { fps := fps, t := [], dt := [], m := [], A := [], B := []
    anchor_k := -1, w_prev := 0, is_prepared := false }

/-- `_validate_segments`, one segment: field presence in the order
`frame_start`, `frame_end`, `distance`; then numeric conversion; then the
logical checks in source order. -/
def validate_one_segment (fps : ℚ) (seg : Segment) : Except String Unit :=
  match seg.frame_start, seg.frame_end, seg.distance with
  | none, _, _ => .error "missing field frame_start"
  | _, none, _ => .error "missing field frame_end"
  | _, _, none => .error "missing field distance"
  | some a, some b, some c =>
    match a.toNum?, b.toNum?, c.toNum? with
    | some fs, some fe, some d =>
      if fe ≤ fs then .error "frame_end must be greater than frame_start"
      else if d ≤ 0 then .error "distance must be positive"
      else if fps ≤ 0 then .error "fps must be positive"
      else if (fe - fs) / fps ≤ 0 then .error "nonpositive time interval"
      else .ok ()
    | _, _, _ => .error "numeric data error"

/-- The per-segment loop of `_validate_segments`: stops at the first
failing segment. -/
def validate_rest (fps : ℚ) : List Segment → Except String Unit
  | [] => .ok ()
  | seg :: rest =>
    match validate_one_segment fps seg with
    | .error e => .error e
    | .ok _ => validate_rest fps rest

/-- `_validate_segments`: an empty list is rejected first, then every
segment is checked in order. -/
def validate_segments (fps : ℚ) (segments : List Segment) : Except String Unit :=
  if segments = [] then .error "empty segment data"
  else validate_rest fps segments

/-- Propagation-direction coefficient (engine step 4):
`A_i = 1` at the anchor, otherwise `(-1)^(i-k)` via Python's
always-nonnegative `%`. -/
def Acoeff (k i : ℕ) : ℤ :=
  if i = k then 1
  else if ((i : ℤ) - (k : ℤ)) % 2 = 0 then 1 else -1

/-- Rightward offset propagation (engine step 5, first loop):
`B[k] = 0` and `B[i+1] = m[i] - B[i]` for `i = k, k+1, ...`;
`propagateRight m k j` is the value of `B[k+j]`. -/
def propagateRight (m : List ℚ) (k : ℕ) : ℕ → ℚ
  | 0 => 0
  | j + 1 => m.getD (k + j) 0 - propagateRight m k j

/-- Leftward offset propagation (engine step 5, second loop):
`B[i-1] = m[i-1] - B[i]` for `i = k, k-1, ...`;
`propagateLeft m k j` is the value of `B[k-j]`. -/
def propagateLeft (m : List ℚ) (k : ℕ) : ℕ → ℚ
  | 0 => 0
  | j + 1 => m.getD (k - (j + 1)) 0 - propagateLeft m k j

/-- Offset coefficient `B_i` produced by the two propagation loops. -/
def Bcoeff (m : List ℚ) (k i : ℕ) : ℚ :=
  if k ≤ i then propagateRight m k (i - k) else propagateLeft m k (k - i)

/-- Engine step 1: `dt` array. -/
def buildDt (fps : ℚ) (segments : List Segment) : List ℚ :=
  segments.map (segDt fps)

/-- Engine step 1: node times `t`, cumulative sums starting at `0.0`. -/
def buildT (fps : ℚ) (segments : List Segment) : List ℚ :=
  (buildDt fps segments).scanl (· + ·) 0

/-- Engine step 2: `m` array. -/
def buildM (fps : ℚ) (segments : List Segment) : List ℚ :=
  segments.map (segM fps)

/-- Engine step 3: anchor node index `N // 2` (middle node). -/
def anchorOf (segments : List Segment) : ℕ :=
  segments.length / 2

/-- Engine step 4: `A` array over nodes `0..N`. -/
def buildA (segments : List Segment) : List ℤ :=
  (List.range (segments.length + 1)).map (Acoeff (anchorOf segments))

/-- Engine step 5: `B` array over nodes `0..N`. -/
def buildB (fps : ℚ) (segments : List Segment) : List ℚ :=
  (List.range (segments.length + 1)).map (Bcoeff (buildM fps segments) (anchorOf segments))

/-- Engine step 6: initial anchor velocity `w = m[0] / 2` (m/s). -/
def buildW (fps : ℚ) (segments : List Segment) : ℚ :=
  (buildM fps segments).getD 0 0 / 2

/-- Engine steps 7-8: node points with velocity `v_i = A_i * w + B_i`
converted to km/h. -/
def buildPoints (fps : ℚ) (segments : List Segment) : List Point :=
  (List.range (segments.length + 1)).map (fun i =>
    { time := (buildT fps segments).getD i 0
      velocity := (((buildA segments).getD i 0 : ℚ) * buildW fps segments
        + (buildB fps segments).getD i 0) * 3.6 })

/-- The engine state written by a successful `prepare_initial_graph`. -/
def buildState (fps : ℚ) (segments : List Segment) : EngineState :=
  { fps := fps
    t := buildT fps segments
    dt := buildDt fps segments
    m := buildM fps segments
    A := buildA segments
    B := buildB fps segments
    anchor_k := (anchorOf segments : ℤ)
    w_prev := buildW fps segments
    is_prepared := true }

/-- `prepare_initial_graph`: validation happens before any state mutation,
so a validation failure re-raises and leaves the state untouched. -/
def prepare_initial_graph (s : EngineState) (segments : List Segment) :
    EngineState × Except String (List Point) :=
  match validate_segments s.fps segments with
  | .error e => (s, .error e)
  | .ok _ => (buildState s.fps segments, .ok (buildPoints s.fps segments))

/-- The node list of a successful build, or `[]` on failure. -/
def okD (e : Except String (List Point)) : List Point :=
  match e with
  | .ok points => points
  | .error _ => []

/-- `_update_direct`: `v_i = A[i]*w + B[i]`, clamped at 0 in km/h;
updates `w_prev`. -/
def update_direct (s : EngineState) (new_anchor_velocity_kmh : ℚ) :
    EngineState × List Point :=
  let w := new_anchor_velocity_kmh / 3.6
  let points := (List.range s.t.length).map (fun i =>
    { time := s.t.getD i 0
      velocity := max 0 (((s.A.getD i 0 : ℚ) * w + s.B.getD i 0) * 3.6) : Point })
  ({ s with w_prev := w }, points)

/-- `_update_delta`: returns `[]` without touching `w_prev` when
`|dw| < 1e-6`; otherwise recomputes each node from the previous value plus
`A[i]*dw`, clamped at 0, and updates `w_prev`. -/
def update_delta (s : EngineState) (new_anchor_velocity_kmh : ℚ) :
    EngineState × List Point :=
  let w := new_anchor_velocity_kmh / 3.6
  let dw := w - s.w_prev
  if |dw| < 1e-6 then (s, [])
  else
    let points := (List.range s.t.length).map (fun i =>
      { time := s.t.getD i 0
        velocity := max 0 ((((s.A.getD i 0 : ℚ) * s.w_prev + s.B.getD i 0)
          + (s.A.getD i 0 : ℚ) * dw) * 3.6) : Point })
    ({ s with w_prev := w }, points)

/-- `update_realtime`: no-op on an unprepared engine; dispatches on the
method string, returning `[]` for unknown methods. -/
def update_realtime (s : EngineState) (w_kmh : ℚ) (method : String) :
    EngineState × List Point :=
  if s.is_prepared = false then (s, [])
  else if method = "direct" then update_direct s w_kmh
  else if method = "delta" then update_delta s w_kmh
  else (s, [])

/-- An entry of the data bridge's `_linear_coefficients` list. -/
structure LinCoeff where
  distance_constraint : ℚ
  duration : ℚ
  start_time : ℚ
deriving DecidableEq

/-- An entry of the data bridge's `_linear_params` list. -/
structure LinParam where
  A : ℚ
  B : ℚ
deriving DecidableEq

/-- Sign coefficient of `_calculate_linear_coefficients`:
`+1` when `abs(i - anchor_index)` is even, else `-1`. -/
def bridgeA (anchor_index i : ℕ) : ℚ :=
  if ((i : ℤ) - (anchor_index : ℤ)).natAbs % 2 = 0 then 1 else -1

/-- `_calculate_linear_coefficients(coefficients, anchor_index)`: the `A`
sign pattern and the `B` propagation `B[i+1] = m[i] - B[i]` (forward) and
`B[i-1] = m[i-1] - B[i]` (backward) from `B[anchor] = 0`.  An anchor index
outside the list makes the Python code raise `IndexError`, which the
enclosing handler turns into `[]`. -/
def calculate_linear_coefficients (coefficients : List LinCoeff) (anchor_index : ℕ) :
    List LinParam :=
  if coefficients = [] then []
  else if coefficients.length ≤ anchor_index then []
  else
    let m := coefficients.map LinCoeff.distance_constraint
    (List.range coefficients.length).map (fun i =>
      { A := bridgeA anchor_index i, B := Bcoeff m anchor_index i })

/-- `_update_from_anchor_change`: per segment with positive duration, a
start point `A*w + B` and an end point `m - start` (distance constraint). -/
def update_from_anchor_change (coeffs : List LinCoeff) (params : List LinParam)
    (w : ℚ) : List Point :=
  if coeffs = [] ∨ params = [] then []
  else (coeffs.zip params).flatMap (fun cp =>
    if cp.1.duration ≤ 0 then []
    else
      let start_velocity := cp.2.A * w + cp.2.B
      let end_velocity := cp.1.distance_constraint - start_velocity
      [{ time := cp.1.start_time, velocity := start_velocity },
       { time := cp.1.start_time + cp.1.duration, velocity := end_velocity }])

/-- `_reverse_calculate_anchor(point_index, target_velocity)`: segment-end
points are converted to their start-equivalent `m_i - target` before
inverting `v = A*w + B`, guarded by `abs(A) > 0.001`. -/
def reverse_calculate_anchor (coeffs : List LinCoeff) (params : List LinParam)
    (point_index : ℕ) (target_velocity : ℚ) : ℚ :=
  let segment_index := point_index / 2
  if params = [] ∨ coeffs = [] ∨ params.length ≤ segment_index then target_velocity
  else
    let param := params.getD segment_index { A := 0, B := 0 }
    let v_equiv :=
      if point_index % 2 = 1 then
        if segment_index < coeffs.length then
          (coeffs.getD segment_index
            { distance_constraint := 0, duration := 0, start_time := 0 }).distance_constraint
            - target_velocity
        else target_velocity
      else target_velocity
    if 1 / 1000 < |param.A| then (v_equiv - param.B) / param.A
    else target_velocity

/-- The invalidity condition named by the spec's validation claim: a field
missing or non-numeric, or `frame_end ≤ frame_start`, or `distance ≤ 0`. -/
def claimSegmentInvalid (seg : Segment) : Prop :=
  match seg.frame_start, seg.frame_end, seg.distance with
  | some a, some b, some c =>
    match a.toNum?, b.toNum?, c.toNum? with
    | some fs, some fe, some d => fe ≤ fs ∨ d ≤ 0
    | _, _, _ => True
  | _, _, _ => True

/-- Scenario A, segment 1: frames 0 to 30, distance 10 m. -/
def segA1 : Segment := ⟨some (.num 0), some (.num 30), some (.num 10)⟩

/-- Scenario A, segment 2: frames 30 to 60, distance 8 m. -/
def segA2 : Segment := ⟨some (.num 30), some (.num 60), some (.num 8)⟩

/-- Scenario A input. -/
def scenarioA : List Segment := [segA1, segA2]

/-- Second segment of the negative-velocity scenario: frames 30 to 60,
distance 2 m. -/
def segN2 : Segment := ⟨some (.num 30), some (.num 60), some (.num 2)⟩

/-- Input whose initial profile has a negative node velocity. -/
def scenarioNeg : List Segment := [segA1, segN2]

/-- Engine state after building Scenario A at 30 fps. -/
def scenarioAState : EngineState :=
  (prepare_initial_graph (initEngine 30) scenarioA).1

lemma propagateRight_zero (m : List ℚ) (k : ℕ) : propagateRight m k 0 = 0 := rfl

lemma propagateRight_succ (m : List ℚ) (k j : ℕ) :
    propagateRight m k (j + 1) = m.getD (k + j) 0 - propagateRight m k j := rfl

lemma propagateLeft_zero (m : List ℚ) (k : ℕ) : propagateLeft m k 0 = 0 := rfl

lemma propagateLeft_succ (m : List ℚ) (k j : ℕ) :
    propagateLeft m k (j + 1) = m.getD (k - (j + 1)) 0 - propagateLeft m k j := rfl

lemma Acoeff_eq (k i : ℕ) :
    Acoeff k i = if ((i : ℤ) - (k : ℤ)) % 2 = 0 then 1 else -1 := by
  unfold Acoeff
  rcases eq_or_ne i k with h | h
  · subst h; simp
  · simp [h]

lemma Acoeff_succ (k i : ℕ) : Acoeff k (i + 1) = - Acoeff k i := by
  rw [Acoeff_eq, Acoeff_eq]
  split_ifs with h1 h2 h2 <;> push_cast at h1 h2 <;> omega

lemma Acoeff_pm (k i : ℕ) : Acoeff k i = 1 ∨ Acoeff k i = -1 := by
  rw [Acoeff_eq]; split_ifs <;> simp

lemma Bcoeff_pair (m : List ℚ) (k i : ℕ) :
    Bcoeff m k i + Bcoeff m k (i + 1) = m.getD i 0 := by
  unfold Bcoeff
  rcases le_or_lt k i with hk | hk
  · rw [if_pos hk, if_pos (Nat.le_succ_of_le hk)]
    have h1 : i + 1 - k = (i - k) + 1 := by omega
    rw [h1, propagateRight_succ]
    have h2 : k + (i - k) = i := by omega
    rw [h2]; ring
  · rw [if_neg (not_le.mpr hk)]
    rcases Nat.lt_or_ge (i + 1) k with hlt | hge
    · rw [if_neg (not_le.mpr hlt)]
      have h1 : k - i = (k - (i + 1)) + 1 := by omega
      rw [h1, propagateLeft_succ]
      have h2 : k - (k - (i + 1) + 1) = i := by omega
      rw [h2]; ring
    · have hk1 : k = i + 1 := by omega
      subst hk1
      rw [if_pos (le_refl (i + 1))]
      have h1 : i + 1 - i = 0 + 1 := by omega
      have h2 : i + 1 - (i + 1) = 0 := by omega
      rw [h1, h2, propagateLeft_succ, propagateLeft_zero, propagateRight_zero]
      have h3 : i + 1 - (0 + 1) = i := by omega
      rw [h3]; ring

lemma getD_map_range {α : Type} (f : ℕ → α) (n i : ℕ) (h : i < n) (d : α) :
    ((List.range n).map f).getD i d = f i := by
  rw [List.getD_eq_getElem _ _ (by simpa using h)]
  simp

lemma getD_map_lt {α β : Type} (f : α → β) (l : List α) (i : ℕ) (h : i < l.length)
    (d : β) (e : α) :
    (l.map f).getD i d = f (l.getD i e) := by
  rw [List.getD_eq_getElem _ _ (by simpa using h), List.getD_eq_getElem _ _ h]
  simp

lemma buildPoints_getD (fps : ℚ) (segments : List Segment) (i : ℕ)
    (hi : i < segments.length + 1) :
    (buildPoints fps segments).getD i ⟨0, 0⟩ =
      { time := (buildT fps segments).getD i 0
        velocity := ((Acoeff (anchorOf segments) i : ℚ) * buildW fps segments
          + Bcoeff (buildM fps segments) (anchorOf segments) i) * 3.6 } := by
  unfold buildPoints
  rw [getD_map_range _ _ _ hi]
  unfold buildA buildB
  rw [getD_map_range _ _ _ hi, getD_map_range _ _ _ hi]

lemma claim_valid_facts {seg : Segment} (h : ¬ claimSegmentInvalid seg) :
    seg.fsQ < seg.feQ ∧ 0 < seg.distQ := by
  obtain ⟨f1, f2, f3⟩ := seg
  rcases f1 with _ | a <;> rcases f2 with _ | b <;> rcases f3 with _ | c <;>
    try simp [claimSegmentInvalid] at h
  rcases a with qa | sa <;> rcases b with qb | sb <;> rcases c with qc | sc <;>
    try simp [claimSegmentInvalid, Val.toNum?] at h
  simpa [Segment.fsQ, Segment.feQ, Segment.distQ, fieldNum, Val.toNum?] using h

lemma segDt_pos {fps : ℚ} {seg : Segment} (hfps : 0 < fps)
    (h : ¬ claimSegmentInvalid seg) : 0 < segDt fps seg :=
  div_pos (sub_pos.mpr (claim_valid_facts h).1) hfps

lemma validate_one_ok_iff (fps : ℚ) (seg : Segment) :
    validate_one_segment fps seg = .ok () ↔ (¬ claimSegmentInvalid seg ∧ 0 < fps) := by
  obtain ⟨f1, f2, f3⟩ := seg
  rcases f1 with _ | a <;> rcases f2 with _ | b <;> rcases f3 with _ | c <;>
    simp [validate_one_segment, claimSegmentInvalid]
  rcases a with qa | sa <;> rcases b with qb | sb <;> rcases c with qc | sc <;>
    simp [Val.toNum?]
  split_ifs with h1 h2 h3 h4
  · simp [h1]
  · simp [h1, h2]
  · simp [h1, h2, not_lt.mpr h3]
  · exact absurd h4 (not_le.mpr (div_pos (sub_pos.mpr (not_le.mp h1)) (not_le.mp h3)))
  · simp [not_le.mp h1, not_le.mp h2, not_le.mp h3]

lemma validate_rest_ok_iff (fps : ℚ) (l : List Segment) :
    validate_rest fps l = .ok () ↔ ∀ seg ∈ l, validate_one_segment fps seg = .ok () := by
  induction l with
  | nil => simp [validate_rest]
  | cons a l ih =>
    unfold validate_rest
    cases h : validate_one_segment fps a with
    | error e => simp [h]
    | ok u => cases u; simp [h, ih]

lemma validate_segments_ok_iff (fps : ℚ) (l : List Segment) :
    validate_segments fps l = .ok () ↔
      (l ≠ [] ∧ 0 < fps ∧ ∀ seg ∈ l, ¬ claimSegmentInvalid seg) := by
  unfold validate_segments
  rcases eq_or_ne l [] with h | h
  · subst h; simp
  · rw [if_neg h, validate_rest_ok_iff]
    simp only [validate_one_ok_iff]
    constructor
    · intro hall
      obtain ⟨a, ha⟩ := List.exists_mem_of_ne_nil l h
      exact ⟨h, (hall a ha).2, fun seg hs => (hall seg hs).1⟩
    · rintro ⟨-, hfps, hinv⟩ seg hs
      exact ⟨hinv seg hs, hfps⟩

lemma scenarioA_segments_valid : ∀ seg ∈ scenarioA, ¬ claimSegmentInvalid seg := by
  intro seg hs
  simp only [scenarioA, List.mem_cons, List.not_mem_nil, or_false] at hs
  rcases hs with rfl | rfl <;>
    norm_num [claimSegmentInvalid, segA1, segA2, Val.toNum?]

lemma scenarioA_valid : validate_segments (30 : ℚ) scenarioA = .ok () := by
  rw [validate_segments_ok_iff]
  exact ⟨by simp [scenarioA], by norm_num, scenarioA_segments_valid⟩

lemma scenarioA_dt : buildDt 30 scenarioA = [1, 1] := by
  norm_num [buildDt, scenarioA, segA1, segA2, segDt, Segment.fsQ, Segment.feQ,
    fieldNum, Val.toNum?]

lemma scenarioA_t : buildT 30 scenarioA = [0, 1, 2] := by
  rw [buildT, scenarioA_dt]
  norm_num [List.scanl]

lemma scenarioA_m : buildM 30 scenarioA = [20, 16] := by
  norm_num [buildM, scenarioA, segA1, segA2, segM, segDt, Segment.fsQ, Segment.feQ,
    Segment.distQ, fieldNum, Val.toNum?]

lemma scenarioA_anchor : anchorOf scenarioA = 1 := rfl

lemma scenarioA_A : buildA scenarioA = [-1, 1, -1] := by decide

lemma scenarioA_B : buildB 30 scenarioA = [20, 0, 16] := by
  unfold buildB
  rw [scenarioA_m, scenarioA_anchor,
    show List.range (scenarioA.length + 1) = [0, 1, 2] from rfl]
  norm_num [Bcoeff, propagateLeft_succ, propagateLeft_zero, propagateRight_succ,
    propagateRight_zero, List.getD]

lemma scenarioA_W : buildW 30 scenarioA = 10 := by
  rw [buildW, scenarioA_m]
  norm_num [List.getD]

lemma scenarioA_points : buildPoints 30 scenarioA = [⟨0, 36⟩, ⟨1, 36⟩, ⟨2, 21.6⟩] := by
  unfold buildPoints
  rw [show List.range (scenarioA.length + 1) = [0, 1, 2] from rfl]
  simp only [List.map_cons, List.map_nil]
  rw [scenarioA_t, scenarioA_W]
  unfold buildA buildB
  rw [scenarioA_m, scenarioA_anchor,
    show List.range (scenarioA.length + 1) = [0, 1, 2] from rfl]
  norm_num [Bcoeff, Acoeff, propagateLeft_succ, propagateLeft_zero, propagateRight_succ,
    propagateRight_zero, List.getD, Point.mk.injEq]

lemma scenarioA_state : buildState 30 scenarioA =
    { fps := 30, t := [0, 1, 2], dt := [1, 1], m := [20, 16], A := [-1, 1, -1],
      B := [20, 0, 16], anchor_k := 1, w_prev := 10, is_prepared := true } := by
  unfold buildState
  rw [scenarioA_dt, scenarioA_t, scenarioA_m, scenarioA_A, scenarioA_B, scenarioA_W,
    scenarioA_anchor]
  norm_num

lemma scenarioA_build :
    prepare_initial_graph (initEngine 30) scenarioA =
      ({ fps := 30, t := [0, 1, 2], dt := [1, 1], m := [20, 16], A := [-1, 1, -1],
         B := [20, 0, 16], anchor_k := 1, w_prev := 10, is_prepared := true },
       .ok [⟨0, 36⟩, ⟨1, 36⟩, ⟨2, 21.6⟩]) := by
  have hfps : (initEngine 30).fps = (30 : ℚ) := rfl
  unfold prepare_initial_graph
  rw [hfps, scenarioA_valid]
  show (buildState 30 scenarioA, Except.ok (buildPoints 30 scenarioA)) = _
  rw [scenarioA_state, scenarioA_points]

lemma scenarioNeg_valid : validate_segments (30 : ℚ) scenarioNeg = .ok () := by
  rw [validate_segments_ok_iff]
  refine ⟨by simp [scenarioNeg], by norm_num, ?_⟩
  intro seg hs
  simp only [scenarioNeg, List.mem_cons, List.not_mem_nil, or_false] at hs
  rcases hs with rfl | rfl <;>
    norm_num [claimSegmentInvalid, segA1, segN2, Val.toNum?]

lemma scenarioNeg_points : buildPoints 30 scenarioNeg = [⟨0, 36⟩, ⟨1, 36⟩, ⟨2, -21.6⟩] := by
  unfold buildPoints buildA buildB buildW buildT
  rw [show List.range (scenarioNeg.length + 1) = [0, 1, 2] from rfl,
    show anchorOf scenarioNeg = 1 from rfl,
    show buildM 30 scenarioNeg = [20, 4] by
      norm_num [buildM, scenarioNeg, segA1, segN2, segM, segDt, Segment.fsQ, Segment.feQ,
        Segment.distQ, fieldNum, Val.toNum?],
    show buildDt 30 scenarioNeg = [1, 1] by
      norm_num [buildDt, scenarioNeg, segA1, segN2, segDt, Segment.fsQ, Segment.feQ,
        fieldNum, Val.toNum?]]
  norm_num [Bcoeff, Acoeff, propagateLeft_succ, propagateLeft_zero, propagateRight_succ,
    propagateRight_zero, List.getD, List.scanl, Point.mk.injEq]

lemma scenarioNeg_build_points :
    okD (prepare_initial_graph (initEngine 30) scenarioNeg).2 =
      [⟨0, 36⟩, ⟨1, 36⟩, ⟨2, -21.6⟩] := by
  have hfps : (initEngine 30).fps = (30 : ℚ) := rfl
  unfold prepare_initial_graph
  rw [hfps, scenarioNeg_valid]
  show okD (Except.ok (buildPoints 30 scenarioNeg)) = _
  rw [okD, scenarioNeg_points]

lemma buildState_A (fps : ℚ) (segments : List Segment) :
    (buildState fps segments).A = buildA segments := rfl

lemma buildState_B (fps : ℚ) (segments : List Segment) :
    (buildState fps segments).B = buildB fps segments := rfl

lemma buildPoints_getD_velocity (fps : ℚ) (segments : List Segment) (i : ℕ)
    (hi : i < segments.length + 1) :
    ((buildPoints fps segments).getD i ⟨0, 0⟩).velocity =
      ((Acoeff (anchorOf segments) i : ℚ) * buildW fps segments
        + Bcoeff (buildM fps segments) (anchorOf segments) i) * 3.6 := by
  rw [buildPoints_getD _ _ _ hi]

lemma prepare_ok_points {s : EngineState} {segments : List Segment}
    (hok : validate_segments s.fps segments = .ok ()) :
    okD (prepare_initial_graph s segments).2 = buildPoints s.fps segments := by
  unfold prepare_initial_graph
  rw [hok]
  rfl

lemma prepare_ok_state {s : EngineState} {segments : List Segment}
    (hok : validate_segments s.fps segments = .ok ()) :
    (prepare_initial_graph s segments).1 = buildState s.fps segments := by
  unfold prepare_initial_graph
  rw [hok]

/-- C1: for every valid segment list and every positive fps, the freshly
built node profile conserves every measured distance: converting node
velocities back from km/h to m/s, the trapezoid
`(v_i + v_{i+1}) * dt_i / 2` reproduces `distance_i` within 1e-9 (here:
exactly, hence within the tolerance). -/
theorem C1_distance_conservation (s : EngineState) (segments : List Segment)
    (hfps : 0 < s.fps)
    (hval : ∀ seg ∈ segments, ¬ claimSegmentInvalid seg)
    (i : ℕ) (hi : i < segments.length) :
    |(((okD (prepare_initial_graph s segments).2).getD i ⟨0, 0⟩).velocity / 3.6
        + ((okD (prepare_initial_graph s segments).2).getD (i + 1) ⟨0, 0⟩).velocity / 3.6)
        * segDt s.fps (segments.getD i ⟨none, none, none⟩) / 2
      - (segments.getD i ⟨none, none, none⟩).distQ| ≤ 1 / 1000000000 := by
  have hne : segments ≠ [] := by rintro rfl; simp at hi
  have hok : validate_segments s.fps segments = .ok () :=
    (validate_segments_ok_iff _ _).mpr ⟨hne, hfps, hval⟩
  have hmem : segments.getD i ⟨none, none, none⟩ ∈ segments := by
    rw [List.getD_eq_getElem _ _ hi]
    exact List.getElem_mem hi
  have hdt : 0 < segDt s.fps (segments.getD i ⟨none, none, none⟩) :=
    segDt_pos hfps (hval _ hmem)
  rw [prepare_ok_points hok,
    buildPoints_getD_velocity _ _ _ (by omega),
    buildPoints_getD_velocity _ _ _ (by omega)]
  have h36 : (3.6 : ℚ) ≠ 0 := by norm_num
  rw [mul_div_cancel_right₀ _ h36, mul_div_cancel_right₀ _ h36]
  have hsum : ((Acoeff (anchorOf segments) i : ℚ) * buildW s.fps segments
        + Bcoeff (buildM s.fps segments) (anchorOf segments) i)
      + ((Acoeff (anchorOf segments) (i + 1) : ℚ) * buildW s.fps segments
        + Bcoeff (buildM s.fps segments) (anchorOf segments) (i + 1))
      = (buildM s.fps segments).getD i 0 := by
    have hA : ((Acoeff (anchorOf segments) (i + 1) : ℤ) : ℚ)
        = -((Acoeff (anchorOf segments) i : ℤ) : ℚ) := by
      rw [Acoeff_succ]; push_cast; ring
    rw [hA, ← Bcoeff_pair (buildM s.fps segments) (anchorOf segments) i]
    ring
  rw [hsum]
  have hmi : (buildM s.fps segments).getD i 0
      = segM s.fps (segments.getD i ⟨none, none, none⟩) := by
    unfold buildM
    exact getD_map_lt _ _ _ hi _ _
  rw [hmi, segM, div_mul_cancel₀ _ (ne_of_gt hdt)]
  have hd : (2 : ℚ) * (segments.getD i ⟨none, none, none⟩).distQ / 2
      - (segments.getD i ⟨none, none, none⟩).distQ = 0 := by ring
  rw [hd]
  norm_num

/-- Witness for C1 at Scenario A, segment 0. -/
theorem C1_distance_conservation_witness :
    |(((okD (prepare_initial_graph (initEngine 30) scenarioA).2).getD 0 ⟨0, 0⟩).velocity / 3.6
        + ((okD (prepare_initial_graph (initEngine 30) scenarioA).2).getD 1 ⟨0, 0⟩).velocity / 3.6)
        * segDt 30 (scenarioA.getD 0 ⟨none, none, none⟩) / 2
      - (scenarioA.getD 0 ⟨none, none, none⟩).distQ| ≤ 1 / 1000000000 :=
  C1_distance_conservation (initEngine 30) scenarioA (by norm_num [initEngine])
    scenarioA_segments_valid 0 (by norm_num [scenarioA])

/-- C2: after every successful build, the sign array alternates with
values in plus-minus one and adjacent offsets sum to the distance
coefficient `m_i = 2 * distance_i / dt_i` (exactly, hence within 1e-6). -/
theorem C2_coefficient_invariants (s : EngineState) (segments : List Segment)
    (hfps : 0 < s.fps)
    (hval : ∀ seg ∈ segments, ¬ claimSegmentInvalid seg)
    (hne : segments ≠ []) :
    (∀ i < segments.length + 1, (prepare_initial_graph s segments).1.A.getD i 0 = 1
      ∨ (prepare_initial_graph s segments).1.A.getD i 0 = -1)
    ∧ (∀ i < segments.length, (prepare_initial_graph s segments).1.A.getD i 0
      = -((prepare_initial_graph s segments).1.A.getD (i + 1) 0))
    ∧ (∀ i < segments.length,
      |(prepare_initial_graph s segments).1.B.getD i 0
        + (prepare_initial_graph s segments).1.B.getD (i + 1) 0
        - segM s.fps (segments.getD i ⟨none, none, none⟩)| ≤ 1 / 1000000) := by
  have hok : validate_segments s.fps segments = .ok () :=
    (validate_segments_ok_iff _ _).mpr ⟨hne, hfps, hval⟩
  rw [prepare_ok_state hok, buildState_A, buildState_B]
  refine ⟨?_, ?_, ?_⟩
  · intro i hi
    unfold buildA
    rw [getD_map_range _ _ _ hi]
    exact Acoeff_pm _ _
  · intro i hi
    unfold buildA
    rw [getD_map_range _ _ _ (by omega), getD_map_range _ _ _ (by omega), Acoeff_succ,
      neg_neg]
  · intro i hi
    unfold buildB
    rw [getD_map_range _ _ _ (by omega), getD_map_range _ _ _ (by omega), Bcoeff_pair]
    have hmi : (buildM s.fps segments).getD i 0
        = segM s.fps (segments.getD i ⟨none, none, none⟩) := by
      unfold buildM
      exact getD_map_lt _ _ _ hi _ _
    rw [hmi]
    norm_num

/-- Witness for C2 at Scenario A: the offset-sum invariant at segment 0. -/
theorem C2_coefficient_invariants_witness :
    |(prepare_initial_graph (initEngine 30) scenarioA).1.B.getD 0 0
      + (prepare_initial_graph (initEngine 30) scenarioA).1.B.getD 1 0
      - segM 30 (scenarioA.getD 0 ⟨none, none, none⟩)| ≤ 1 / 1000000 :=
  (C2_coefficient_invariants (initEngine 30) scenarioA (by norm_num [initEngine])
    scenarioA_segments_valid (by simp [scenarioA])).2.2 0 (by norm_num [scenarioA])

/-- C3 counterexample: on the Scenario A input the build does not choose
anchor node 0, and the stored coefficient arrays are not [+1, -1, +1] and
[0, 20, -4]. -/
theorem C3_counterexample :
    (prepare_initial_graph (initEngine 30) scenarioA).1.anchor_k ≠ 0
    ∧ (prepare_initial_graph (initEngine 30) scenarioA).1.A ≠ [1, -1, 1]
    ∧ (prepare_initial_graph (initEngine 30) scenarioA).1.B ≠ [0, 20, -4] := by
  rw [scenarioA_build]
  refine ⟨by norm_num, by decide, ?_⟩
  simp only [ne_eq, List.cons.injEq, not_and]
  norm_num

/-- C3 amended: on the Scenario A input the build chooses the middle node
`k = N // 2 = 1` as anchor and computes A = [-1, +1, -1], B = [20, 0, 16]. -/
theorem C3_amended_anchor_and_coefficients :
    (prepare_initial_graph (initEngine 30) scenarioA).1.anchor_k = 1
    ∧ (prepare_initial_graph (initEngine 30) scenarioA).1.A = [-1, 1, -1]
    ∧ (prepare_initial_graph (initEngine 30) scenarioA).1.B = [20, 0, 16] := by
  rw [scenarioA_build]
  exact ⟨rfl, rfl, rfl⟩

/-- C4: the Scenario A build returns exactly three nodes at times
[0, 1, 2] s with velocities [36, 36, 21.6] km/h, and the default anchor
velocity is w0 = m_0 / 2 = 10 m/s. -/
theorem C4_scenarioA_profile :
    okD (prepare_initial_graph (initEngine 30) scenarioA).2 = [⟨0, 36⟩, ⟨1, 36⟩, ⟨2, 21.6⟩]
    ∧ (prepare_initial_graph (initEngine 30) scenarioA).1.w_prev = 10 := by
  rw [scenarioA_build]
  exact ⟨rfl, rfl⟩

/-- C5 counterexample: on the empty segment list the build raises the
empty-input validation error rather than returning an empty node list. -/
theorem C5_counterexample :
    (prepare_initial_graph (initEngine 30) []).2 = .error "empty segment data" := rfl

/-- C5 amended: an empty segment list makes the build fail with the
empty-input validation error; the engine state is left unchanged. -/
theorem C5_amended_empty_rejected (s : EngineState) :
    (prepare_initial_graph s []).2 = .error "empty segment data"
    ∧ (prepare_initial_graph s []).1 = s :=
  ⟨rfl, rfl⟩

/-- C6: the build fails with a validation error exactly when the list is
empty, fps is nonpositive, or some segment has a missing/non-numeric field,
frame_end at most frame_start, or nonpositive distance; and on failure the
engine state is returned unchanged (validation precedes every mutation). -/
theorem C6_validation_iff (s : EngineState) (segments : List Segment) :
    ((∃ e, (prepare_initial_graph s segments).2 = .error e) ↔
      (segments = [] ∨ s.fps ≤ 0 ∨ ∃ seg ∈ segments, claimSegmentInvalid seg))
    ∧ ((∃ e, (prepare_initial_graph s segments).2 = .error e) →
      (prepare_initial_graph s segments).1 = s) := by
  unfold prepare_initial_graph
  cases hv : validate_segments s.fps segments with
  | error e =>
    refine ⟨⟨fun _ => ?_, fun _ => ⟨e, rfl⟩⟩, fun _ => rfl⟩
    have hnot : ¬(segments ≠ [] ∧ 0 < s.fps
        ∧ ∀ seg ∈ segments, ¬ claimSegmentInvalid seg) := by
      rw [← validate_segments_ok_iff]
      simp [hv]
    by_cases h1 : segments = []
    · exact Or.inl h1
    by_cases h2 : s.fps ≤ 0
    · exact Or.inr (Or.inl h2)
    push_neg at hnot
    exact Or.inr (Or.inr (hnot h1 (not_le.mp h2)))
  | ok u =>
    cases u
    have hok := (validate_segments_ok_iff s.fps segments).mp hv
    refine ⟨⟨fun h => ?_, fun h => ?_⟩, fun h => ?_⟩
    · obtain ⟨e, he⟩ := h
      simp at he
    · rcases h with h | h | ⟨seg, hs, hbad⟩
      · exact absurd h hok.1
      · exact absurd h (not_le.mpr hok.2.1)
      · exact absurd hbad (hok.2.2 seg hs)
    · obtain ⟨e, he⟩ := h
      simp at he

/-- Witness for C6 at the empty list. -/
theorem C6_validation_iff_witness :
    (∃ e, (prepare_initial_graph (initEngine 30) []).2 = .error e)
    ∧ (prepare_initial_graph (initEngine 30) []).1 = initEngine 30 := by
  have h := C6_validation_iff (initEngine 30) []
  have he : ∃ e, (prepare_initial_graph (initEngine 30) []).2 = .error e :=
    h.1.mpr (Or.inl rfl)
  exact ⟨he, h.2 he⟩

lemma update_realtime_unprepared {s : EngineState} (hp : s.is_prepared = false)
    (w : ℚ) (method : String) : update_realtime s w method = (s, []) := by
  unfold update_realtime
  rw [if_pos hp]

lemma update_realtime_direct {s : EngineState} (hp : s.is_prepared = true) (w : ℚ) :
    update_realtime s w "direct" = update_direct s w := by
  unfold update_realtime
  rw [if_neg (by simp [hp]), if_pos rfl]

lemma update_realtime_delta {s : EngineState} (hp : s.is_prepared = true) (w : ℚ) :
    update_realtime s w "delta" = update_delta s w := by
  unfold update_realtime
  rw [if_neg (by simp [hp]), if_neg (by decide), if_pos rfl]

/-- The Scenario A engine state, spelled out. -/
lemma scenarioAState_eq : scenarioAState =
    { fps := 30, t := [0, 1, 2], dt := [1, 1], m := [20, 16], A := [-1, 1, -1],
      B := [20, 0, 16], anchor_k := 1, w_prev := 10, is_prepared := true } := by
  unfold scenarioAState
  rw [scenarioA_build]

lemma map_range_three {α : Type} (f : ℕ → α) :
    (List.range 3).map f = [f 0, f 1, f 2] := rfl

lemma scenarioA_prepared : scenarioAState.is_prepared = true := by
  rw [scenarioAState_eq]

/-- C7 counterexample: from the Scenario A state, updating to 36 km/h (the
stored anchor velocity) makes the direct method return the full three-node
list while the delta method returns the empty no-change list, so the two
methods do not always yield identical node-velocity lists. -/
theorem C7_counterexample :
    ((update_realtime scenarioAState 36 "direct").2).length = 3
    ∧ (update_realtime scenarioAState 36 "delta").2 = [] := by
  rw [update_realtime_direct scenarioA_prepared 36,
    update_realtime_delta scenarioA_prepared 36, scenarioAState_eq]
  constructor
  · norm_num [update_direct]
  · norm_num [update_delta, abs_lt]

/-- C7 amended: from the same prepared state, direct and delta updates to
the same target w yield identical node-velocity lists whenever the target
differs from the stored anchor velocity by at least the delta method's
1e-6 m/s no-change threshold (below it, delta returns the empty list). -/
theorem C7_amended_method_equivalence (s : EngineState) (w : ℚ)
    (h : 1e-6 ≤ |w / 3.6 - s.w_prev|) :
    (update_realtime s w "direct").2 = (update_realtime s w "delta").2 := by
  cases hp : s.is_prepared with
  | false => rw [update_realtime_unprepared hp, update_realtime_unprepared hp]
  | true =>
    rw [update_realtime_direct hp, update_realtime_delta hp]
    simp only [update_direct, update_delta]
    rw [if_neg (not_lt.mpr h)]
    simp only
    apply List.map_congr_left
    intro i _
    have hv : ((s.A.getD i 0 : ℚ) * s.w_prev + s.B.getD i 0)
        + (s.A.getD i 0 : ℚ) * (w / 3.6 - s.w_prev)
        = (s.A.getD i 0 : ℚ) * (w / 3.6) + s.B.getD i 0 := by ring
    rw [hv]

/-- Witness for C7 amended: Scenario A state, target 54 km/h. -/
theorem C7_amended_method_equivalence_witness :
    (update_realtime scenarioAState 54 "direct").2 =
      (update_realtime scenarioAState 54 "delta").2 :=
  C7_amended_method_equivalence scenarioAState 54
    (by rw [scenarioAState_eq]; norm_num [abs_of_nonneg])

/-- C8 counterexample: from the Scenario A state, a delta update to 54 km/h
returns three nodes, but the immediate repeat with the same 54 km/h returns
the empty list, so repeated calls do not always produce identical output. -/
lemma scenarioA_delta54 :
    update_delta scenarioAState 54 =
      ({ fps := 30, t := [0, 1, 2], dt := [1, 1], m := [20, 16], A := [-1, 1, -1],
         B := [20, 0, 16], anchor_k := 1, w_prev := 15, is_prepared := true },
       [⟨0, 18⟩, ⟨1, 54⟩, ⟨2, 18/5⟩]) := by
  rw [scenarioAState_eq]
  norm_num [update_delta, abs_lt, map_range_three, max_eq_right]

theorem C8_counterexample :
    ((update_realtime scenarioAState 54 "delta").2).length = 3
    ∧ (update_realtime (update_realtime scenarioAState 54 "delta").1 54 "delta").2 = [] := by
  rw [update_realtime_delta scenarioA_prepared 54, scenarioA_delta54]
  refine ⟨rfl, ?_⟩
  dsimp only
  rw [update_realtime_delta rfl 54]
  norm_num [update_delta, abs_lt]

/-- C8 amended: update_realtime with method "direct" is idempotent: for
every engine state and target velocity, the second of two identical calls
returns the same node list as the first. -/
theorem C8_amended_direct_idempotent (s : EngineState) (w : ℚ) :
    (update_realtime (update_realtime s w "direct").1 w "direct").2 =
      (update_realtime s w "direct").2 := by
  cases hp : s.is_prepared with
  | false => rw [update_realtime_unprepared hp, update_realtime_unprepared hp]
  | true =>
    have h1 : update_realtime s w "direct" = update_direct s w :=
      update_realtime_direct hp w
    rw [h1]
    have hp2 : (update_direct s w).1.is_prepared = true := hp
    rw [update_realtime_direct hp2 w]
    rfl

lemma bridgeA_cases (k i : ℕ) : bridgeA k i = 1 ∨ bridgeA k i = -1 := by
  unfold bridgeA
  split_ifs <;> simp

lemma bridgeA_ne_zero (k i : ℕ) : bridgeA k i ≠ 0 := by
  rcases bridgeA_cases k i with h | h <;> rw [h] <;> norm_num

lemma bridgeA_abs_large (k i : ℕ) : 1 / 1000 < |bridgeA k i| := by
  rcases bridgeA_cases k i with h | h <;> rw [h] <;> norm_num

lemma calc_params_length {coeffs : List LinCoeff} {k : ℕ} (hk : k < coeffs.length) :
    (calculate_linear_coefficients coeffs k).length = coeffs.length := by
  simp only [calculate_linear_coefficients]
  rw [if_neg (by rintro rfl; simp at hk), if_neg (not_le.mpr hk)]
  simp

lemma calc_params_getD {coeffs : List LinCoeff} {k : ℕ} (hk : k < coeffs.length)
    {j : ℕ} (hj : j < coeffs.length) :
    (calculate_linear_coefficients coeffs k).getD j ⟨0, 0⟩ =
      ⟨bridgeA k j, Bcoeff (coeffs.map LinCoeff.distance_constraint) k j⟩ := by
  simp only [calculate_linear_coefficients]
  rw [if_neg (by rintro rfl; simp at hk), if_neg (not_le.mpr hk)]
  exact getD_map_range _ _ _ hj _

lemma flatMap_pairs_getD {α : Type} (f : α → List Point) (d : α) :
    ∀ l : List α, (∀ a ∈ l, (f a).length = 2) → ∀ j c : ℕ, j < l.length → c < 2 →
      (l.flatMap f).getD (2 * j + c) ⟨0, 0⟩ = (f (l.getD j d)).getD c ⟨0, 0⟩ := by
  intro l
  induction l with
  | nil =>
    intro _ j c hj _
    simp at hj
  | cons a tl ih =>
    intro hf j c hj hc
    have hlen : (f a).length = 2 := hf a (List.mem_cons_self a tl)
    rw [List.flatMap_cons]
    cases j with
    | zero =>
      rw [Nat.mul_zero, Nat.zero_add, List.getD_append _ _ _ _ (by rw [hlen]; omega)]
      rfl
    | succ j2 =>
      rw [List.getD_append_right _ _ _ _ (by rw [hlen]; omega)]
      have hidx : 2 * (j2 + 1) + c - (f a).length = 2 * j2 + c := by rw [hlen]; omega
      rw [hidx,
        ih (fun x hx => hf x (List.mem_cons_of_mem a hx)) j2 c (by simp at hj; omega) hc]
      rfl

lemma getD_zip {α β : Type} (l : List α) (l2 : List β) (j : ℕ)
    (h1 : j < l.length) (h2 : j < l2.length) (d1 : α) (d2 : β) :
    (l.zip l2).getD j (d1, d2) = (l.getD j d1, l2.getD j d2) := by
  rw [List.getD_eq_getElem _ _ (by rw [List.length_zip]; omega),
    List.getD_eq_getElem _ _ h1, List.getD_eq_getElem _ _ h2]
  exact List.getElem_zip ..

lemma update_at_index {coeffs : List LinCoeff} {params : List LinParam}
    (hdur : ∀ c ∈ coeffs, 0 < c.duration)
    (hlen : params.length = coeffs.length)
    (hcne : coeffs ≠ []) (hpne : params ≠ [])
    (w : ℚ) (j c : ℕ) (hj : j < coeffs.length) (hc : c < 2) :
    (update_from_anchor_change coeffs params w).getD (2 * j + c) ⟨0, 0⟩ =
      (if (coeffs.getD j ⟨0, 0, 0⟩).duration ≤ 0 then []
       else [({ time := (coeffs.getD j ⟨0, 0, 0⟩).start_time,
                velocity := (params.getD j ⟨0, 0⟩).A * w + (params.getD j ⟨0, 0⟩).B } : Point),
             { time := (coeffs.getD j ⟨0, 0, 0⟩).start_time + (coeffs.getD j ⟨0, 0, 0⟩).duration,
               velocity := (coeffs.getD j ⟨0, 0, 0⟩).distance_constraint
                 - ((params.getD j ⟨0, 0⟩).A * w + (params.getD j ⟨0, 0⟩).B) }]).getD
        c ⟨0, 0⟩ := by
  have hzlen : (coeffs.zip params).length = coeffs.length := by
    rw [List.length_zip, hlen, Nat.min_self]
  simp only [update_from_anchor_change]
  rw [if_neg (by push_neg; exact ⟨hcne, hpne⟩)]
  have hf : ∀ cp ∈ coeffs.zip params,
      ((fun cp : LinCoeff × LinParam =>
        if cp.1.duration ≤ 0 then []
        else [({ time := cp.1.start_time, velocity := cp.2.A * w + cp.2.B } : Point),
          { time := cp.1.start_time + cp.1.duration,
            velocity := cp.1.distance_constraint - (cp.2.A * w + cp.2.B) }]) cp).length
        = 2 := by
    intro cp hcp
    dsimp only
    rw [if_neg (not_le.mpr (hdur cp.1 (List.of_mem_zip hcp).1))]
    rfl
  rw [flatMap_pairs_getD _ (⟨0, 0, 0⟩, ⟨0, 0⟩) (coeffs.zip params) hf j c
    (by rw [hzlen]; omega) hc]
  rw [getD_zip _ _ _ hj (by omega) _ _]

/-- C9: for every initialized anchor system (parameters generated from
nonempty linear coefficients, all segment durations positive), reverse
calculating the anchor velocity from a target velocity at any point index
and regenerating the profile from the resulting anchor velocity reproduces
the target velocity at that point within 1e-6 (here exactly). -/
theorem C9_reverse_anchor_roundtrip (coeffs : List LinCoeff) (k i : ℕ) (v : ℚ)
    (hk : k < coeffs.length)
    (hdur : ∀ c ∈ coeffs, 0 < c.duration)
    (hi : i < 2 * coeffs.length) :
    |((update_from_anchor_change coeffs (calculate_linear_coefficients coeffs k)
        (reverse_calculate_anchor coeffs (calculate_linear_coefficients coeffs k) i v)).getD
        i ⟨0, 0⟩).velocity - v| ≤ 1 / 1000000 := by
  have hcne : coeffs ≠ [] := by rintro rfl; simp at hk
  have hlen : (calculate_linear_coefficients coeffs k).length = coeffs.length :=
    calc_params_length hk
  have hpne : calculate_linear_coefficients coeffs k ≠ [] := by
    intro h
    rw [h] at hlen
    simp at hlen
    omega
  have hjlt : i / 2 < coeffs.length := by omega
  have hparamj : (calculate_linear_coefficients coeffs k).getD (i / 2) ⟨0, 0⟩ =
      ⟨bridgeA k (i / 2), Bcoeff (coeffs.map LinCoeff.distance_constraint) k (i / 2)⟩ :=
    calc_params_getD hk hjlt
  have hAne : bridgeA k (i / 2) ≠ 0 := bridgeA_ne_zero k (i / 2)
  have hrev : reverse_calculate_anchor coeffs (calculate_linear_coefficients coeffs k) i v
      = ((if i % 2 = 1 then
            (coeffs.getD (i / 2) ⟨0, 0, 0⟩).distance_constraint - v
          else v) - Bcoeff (coeffs.map LinCoeff.distance_constraint) k (i / 2))
        / bridgeA k (i / 2) := by
    simp only [reverse_calculate_anchor]
    rw [if_neg (by push_neg; exact ⟨hpne, hcne, by rw [hlen]; exact hjlt⟩),
      hparamj, if_pos hjlt, if_pos (bridgeA_abs_large k (i / 2))]
  have hdurj : 0 < (coeffs.getD (i / 2) ⟨0, 0, 0⟩).duration := by
    apply hdur
    rw [List.getD_eq_getElem _ _ hjlt]
    exact List.getElem_mem hjlt
  have hupd := update_at_index hdur hlen hcne hpne
    (reverse_calculate_anchor coeffs (calculate_linear_coefficients coeffs k) i v)
    (i / 2) (i % 2) hjlt (by omega)
  rw [show 2 * (i / 2) + i % 2 = i from by omega] at hupd
  rw [hupd, if_neg (not_le.mpr hdurj), hparamj, hrev]
  rcases Nat.mod_two_eq_zero_or_one i with hpar | hpar <;> rw [hpar]
  · rw [if_neg (by norm_num), List.getD_cons_zero]
    have hcalc : bridgeA k (i / 2)
        * ((v - Bcoeff (coeffs.map LinCoeff.distance_constraint) k (i / 2))
          / bridgeA k (i / 2))
        + Bcoeff (coeffs.map LinCoeff.distance_constraint) k (i / 2) - v = 0 := by
      field_simp
    rw [hcalc]
    norm_num
  · rw [if_pos rfl]
    simp only [List.getD_cons_succ, List.getD_cons_zero]
    have hcalc : (coeffs.getD (i / 2) ⟨0, 0, 0⟩).distance_constraint
        - (bridgeA k (i / 2)
          * (((coeffs.getD (i / 2) ⟨0, 0, 0⟩).distance_constraint - v
              - Bcoeff (coeffs.map LinCoeff.distance_constraint) k (i / 2))
            / bridgeA k (i / 2))
          + Bcoeff (coeffs.map LinCoeff.distance_constraint) k (i / 2)) - v = 0 := by
      field_simp
    rw [hcalc]
    norm_num

/-- Concrete two-segment anchor system for the C9 witness (Scenario A in
the bridge's km/h units: m = [72, 57.6], unit durations). -/
def coeffsW : List LinCoeff := [⟨72, 1, 0⟩, ⟨288/5, 1, 1⟩]

/-- Witness for C9: anchor 0, segment-end point 1, target 30 km/h. -/
theorem C9_reverse_anchor_roundtrip_witness :
    |((update_from_anchor_change coeffsW (calculate_linear_coefficients coeffsW 0)
        (reverse_calculate_anchor coeffsW (calculate_linear_coefficients coeffsW 0) 1 30)).getD
        1 ⟨0, 0⟩).velocity - 30| ≤ 1 / 1000000 :=
  C9_reverse_anchor_roundtrip coeffsW 0 1 30 (by norm_num [coeffsW])
    (by
      intro c hc
      simp only [coeffsW, List.mem_cons, List.not_mem_nil, or_false] at hc
      rcases hc with rfl | rfl <;> norm_num)
    (by norm_num [coeffsW])

/-- C10: the initial build does not clamp velocities (a concrete valid
input produces a strictly negative node velocity), while every node
velocity returned by update_realtime, with either method, is clamped to be
nonnegative. -/
theorem C10_build_unclamped_update_clamped :
    (∃ p ∈ okD (prepare_initial_graph (initEngine 30) scenarioNeg).2, p.velocity < 0)
    ∧ ∀ (s : EngineState) (w : ℚ) (method : String) (p : Point),
        p ∈ (update_realtime s w method).2 → 0 ≤ p.velocity := by
  constructor
  · refine ⟨⟨2, -21.6⟩, ?_, by norm_num⟩
    rw [scenarioNeg_build_points]
    exact List.mem_cons_of_mem _ (List.mem_cons_of_mem _ (List.mem_cons_self _ _))
  · intro s w method p hp
    unfold update_realtime at hp
    split_ifs at hp with h1 h2 h3
    · simp at hp
    · simp only [update_direct, List.mem_map] at hp
      obtain ⟨idx, -, rfl⟩ := hp
      exact le_max_left _ _
    · simp only [update_delta] at hp
      split_ifs at hp with h4
      · simp at hp
      · simp only [List.mem_map] at hp
        obtain ⟨idx, -, rfl⟩ := hp
        exact le_max_left _ _
    · simp at hp

/-- The Scenario A direct update to 54 km/h, evaluated. -/
lemma scenarioA_direct54 :
    (update_realtime scenarioAState 54 "direct").2 = [⟨0, 18⟩, ⟨1, 54⟩, ⟨2, 18/5⟩] := by
  rw [update_realtime_direct scenarioA_prepared 54, scenarioAState_eq]
  norm_num [update_direct, map_range_three, max_eq_right]

/-- Witness for C10's clamping clause: the first node of a concrete direct
update has nonnegative velocity. -/
theorem C10_build_unclamped_update_clamped_witness :
    0 ≤ (Point.mk 0 18).velocity :=
  C10_build_unclamped_update_clamped.2 scenarioAState 54 "direct" ⟨0, 18⟩
    (by rw [scenarioA_direct54]; exact List.mem_cons_self _ _)

end SpeedGraph
